import Mathlib

/-!
Shallow embedding of the Auto-align-IEEE document layout engine
(src/backend/services/docx_generator.py together with the data model of
src/backend/models/schemas.py), and proofs about its observable behaviour.

The generated Word document is modelled as the ordered list of content
blocks (paragraphs, embedded pictures, and the two-column section
directive) that generate() appends to the python-docx Document object.
Paragraph styling attributes that no claim refers to (fonts, sizes,
spacing) are not tracked; the block kind records which style family a
paragraph was created with (heading, body, caption, reference, ...).
-/

namespace AutoAlign

/-- Mirrors models.schemas.Section: a titled block of body content. -/
structure Section where
  heading : String
  content : String
deriving DecidableEq, Repr, Inhabited

/-- Mirrors models.schemas.Figure: index is a 0-based position into the
caller-supplied image list, placement is matched case-insensitively
against section headings. -/
structure Figure where
  index : Nat
  caption : String
  placement : String
deriving DecidableEq, Repr, Inhabited

/-- Mirrors models.schemas.StructuredPaper. Field defaults of the
pydantic model (authors placeholder, empty figures and references) are
supplied by callers and need no special handling here. -/
structure StructuredPaper where
  title : String
  authors : String
  abstract : String
  keywords : List String
  sections : List Section
  figures : List Figure
  references : List String
deriving DecidableEq, Repr, Inhabited

/-- One caller-supplied image payload. The field ok models whether
python-docx add_picture succeeds on these bytes: decoding happens inside
the external docx library and is a deterministic function of the bytes,
so it enters the model as part of the input value. -/
structure ImageBytes where
  data : List Nat
  ok : Bool
deriving DecidableEq, Repr, Inhabited

/-- Inches(8.27) in EMU: python-docx Inches(x) stores int(x * 914400). -/
def PAGE_WIDTH : Nat := 7562088

/-- Inches(11.69) in EMU. -/
def PAGE_HEIGHT : Nat := 10689336

/-- Inches(0.75) in EMU. -/
def MARGIN_TOP : Nat := 685800

/-- Inches(1.0) in EMU. -/
def MARGIN_BOTTOM : Nat := 914400

/-- Inches(0.625) in EMU. -/
def MARGIN_LEFT : Nat := 571500

/-- Inches(0.625) in EMU. -/
def MARGIN_RIGHT : Nat := 571500

/-- Inches(0.25) in EMU. -/
def COLUMN_GAP : Nat := 228600

/-- python-docx Length.twips is the EMU value divided by 635
(integer division); used at line 158 of docx_generator.py. -/
def columnGapTwips : Nat := COLUMN_GAP / 635

/-- Page size and margins assigned both to the initial section
(_setup_document, lines 54-60) and to the new layout section opened by
_set_two_column (lines 146-152); both use the same class constants. -/
structure PageGeometry where
  page_width : Nat
  page_height : Nat
  top_margin : Nat
  bottom_margin : Nat
  left_margin : Nat
  right_margin : Nat
deriving DecidableEq, Repr

/-- The fixed geometry built from the IEEEDocxGenerator class constants. -/
def pageGeom : PageGeometry :=
  { page_width := PAGE_WIDTH
    page_height := PAGE_HEIGHT
    top_margin := MARGIN_TOP
    bottom_margin := MARGIN_BOTTOM
    left_margin := MARGIN_LEFT
    right_margin := MARGIN_RIGHT }

/-- One content block of the generated document, in document order.
twoColumn is the section break carrying the w:cols directive (number of
columns and gap in twips) on a new section with the given geometry. -/
inductive Block where
  | title (text : String)
  | authors (text : String)
  | abstract (text : String)
  | keywordsLine (text : String)
  | twoColumn (geom : PageGeometry) (num : Nat) (gapTwips : Nat)
  | heading (text : String)
  | body (text : String)
  | picture (data : List Nat)
  | placeholder (text : String)
  | caption (num : Nat) (text : String)
  | reference (text : String)
deriving DecidableEq, Repr

/-- The mutable build state of one IEEEDocxGenerator during generate():
the in-progress document and the counters (lines 43-45, reset at
lines 49-51). -/
structure Builder where
  doc : List Block
  figure_counter : Nat
  table_counter : Nat
deriving DecidableEq, Repr

/-- _setup_document (lines 47-63): fresh Document, counters reset to 0.
Style creation and page geometry assignment add no content blocks. -/
def setupDocument : Builder :=
  { doc := [], figure_counter := 0, table_counter := 0 }

/-- _add_title (lines 161-163). -/
def addTitle (s : Builder) (title : String) : Builder :=
  { s with doc := s.doc ++ [Block.title title] }

/-- _add_authors (lines 165-167). -/
def addAuthors (s : Builder) (authors : String) : Builder :=
  { s with doc := s.doc ++ [Block.authors authors] }

/-- _add_abstract (lines 169-177): one paragraph whose single run holds
the label followed by the abstract text. -/
def addAbstract (s : Builder) (abstract : String) : Builder :=
  { s with doc := s.doc ++ [Block.abstract ("Abstract—" ++ abstract)] }

/-- _add_keywords (lines 179-185): label run then the semicolon-joined
keyword list. -/
def addKeywords (s : Builder) (keywords : List String) : Builder :=
  { s with doc := s.doc ++ [Block.keywordsLine ("Keywords—" ++ String.intercalate "; " keywords)] }

/-- _set_two_column (lines 143-159): a new section with the same fixed
page geometry and a w:cols element with num = 2 and the fixed gap. -/
def setTwoColumn (s : Builder) : Builder :=
  { s with doc := s.doc ++ [Block.twoColumn pageGeom 2 columnGapTwips] }

/-- The roman_numerals list of _add_section_heading (line 189). -/
def romanNumerals : List String :=
  ["I", "II", "III", "IV", "V", "VI", "VII", "VIII", "IX", "X"]

/-- Line 190: roman_numerals[number - 1] if number <= 10 else str(number).
The getD default "X" mirrors the python index -1 wraparound at
number = 0, which no call site reaches (generate enumerates from 1 and
_add_references passes 99). -/
def headingNumeral (number : Nat) : String :=
  if number ≤ romanNumerals.length then romanNumerals.getD (number - 1) "X"
  else toString number

/-- Python str.lower() as used for placement and heading matching:
character-wise lowering of the string (String.map Char.toLower, written
through the character list so that proofs can evaluate it on literals). -/
def pyLower (s : String) : String := String.mk (s.data.map Char.toLower)

/-- Python str.upper() as used at line 193: character-wise uppercasing. -/
def pyUpper (s : String) : String := String.mk (s.data.map Char.toUpper)

/-- _add_section_heading (lines 187-194). -/
def addSectionHeading (s : Builder) (heading : String) (number : Nat) : Builder :=
  { s with doc := s.doc ++ [Block.heading (headingNumeral number ++ ". " ++ pyUpper heading)] }

/-- Python str.split() with no argument: split on whitespace runs,
dropping empty pieces. -/
def pySplit (s : String) : List String :=
  (s.split fun c => c.isWhitespace).filter (fun t => t ≠ "")

/-- Line 204: a space-join of the whitespace-split pieces. -/
def collapseWs (s : String) : String :=
  String.intercalate " " (pySplit s)

/-- The paragraph texts emitted by _add_body_text (lines 196-205):
strip the content, split on blank lines, strip each piece, keep the
non-empty ones, collapse internal whitespace. -/
def bodyParagraphTexts (content : String) : List String :=
  ((((content.trim).splitOn "\n\n").map String.trim).filter (fun t => t ≠ "")).map collapseWs

/-- The body paragraphs of one section as blocks. -/
def bodyBlocks (content : String) : List Block :=
  (bodyParagraphTexts content).map Block.body

/-- _add_body_text (lines 196-205). -/
def addBodyText (s : Builder) (content : String) : Builder :=
  { s with doc := s.doc ++ bodyBlocks content }

/-- _add_figure (lines 207-228): bump the shared counter, embed the
picture (centered) or, when add_picture raises, a centered placeholder
paragraph, then the caption paragraph with the bold label run
Fig. counter. followed by the caption run. -/
def addFigure (s : Builder) (image_data : ImageBytes) (caption : String) : Builder :=
  let s1 := { s with figure_counter := s.figure_counter + 1 }
  let s2 :=
    if image_data.ok then
      { s1 with doc := s1.doc ++ [Block.picture image_data.data] }
    else
      { s1 with doc := s1.doc ++ [Block.placeholder "[Image could not be processed]"] }
  { s2 with doc := s2.doc ++ [Block.caption s2.figure_counter caption] }

/-- The loop of _add_references (lines 240-245): enumerate(references, 1)
emitting one hanging-indent paragraph per reference. -/
def refEntriesLoop : Nat → List String → Builder → Builder
  | _, [], s => s
  | i, r :: rest, s =>
    refEntriesLoop (i + 1) rest
      { s with doc := s.doc ++ [Block.reference ("[" ++ toString i ++ "] " ++ r)] }

/-- _add_references (lines 230-245): emits the heading through
_add_section_heading with number 99, then clears that last paragraph and
rewrites it as the bare REFERENCES, then the numbered entries. -/
def addReferences (s : Builder) (references : List String) : Builder :=
  let s1 := addSectionHeading s "References" 99
  let s2 := { s1 with doc := s1.doc.dropLast ++ [Block.heading "REFERENCES"] }
  refEntriesLoop 1 references s2

/-- The dict update inside the loop at lines 280-284: existing buckets
keep their position and grow at the end; a new key is inserted at the
end of the dict. -/
def dictAppend : List (String × List Figure) → String → Figure → List (String × List Figure)
  | [], key, fig => [(key, [fig])]
  | (k, v) :: rest, key, fig =>
    if k = key then (k, v ++ [fig]) :: rest
    else (k, v) :: dictAppend rest key fig

/-- figures_by_section (lines 279-284): placement.lower() keyed buckets
in figure-list order. -/
def figuresBySection (figures : List Figure) : List (String × List Figure) :=
  figures.foldl (fun m fig => dictAppend m (pyLower fig.placement) fig) []

/-- Bucket lookup; an absent key yields the empty bucket, which makes
the guarded loop at lines 293-296 a plain iteration over the lookup
result (the in-dict test only skips an empty iteration). -/
def dictLookup (m : List (String × List Figure)) (key : String) : List Figure :=
  match m.find? (fun kv => kv.1 == key) with
  | some kv => kv.2
  | none => []

/-- The inner figure loop at lines 294-296: for each bucket figure, if
fig.index < len(images) render images[fig.index]; the getElem? match is
exactly that bounds test. -/
def renderSectionFigures (images : List ImageBytes) : List Figure → Builder → Builder
  | [], s => s
  | fig :: rest, s =>
    let s1 :=
      match images[fig.index]? with
      | some img => addFigure s img fig.caption
      | none => s
    renderSectionFigures images rest s1

/-- The section loop at lines 287-296: for i, section in
enumerate(paper.sections, 1). -/
def renderSections (fbs : List (String × List Figure)) (images : List ImageBytes) :
    Nat → List Section → Builder → Builder
  | _, [], s => s
  | i, sec :: rest, s =>
    let s1 := addSectionHeading s sec.heading i
    let s2 := addBodyText s1 sec.content
    let s3 := renderSectionFigures images (dictLookup fbs (pyLower sec.heading)) s2
    renderSections fbs images (i + 1) rest s3

/-- The leftover-image sweep at lines 299-303: for i, img_data in
enumerate(images), skipping indices present in the placed-indices set;
note the explicit counter bump before the call to _add_figure, which
bumps it again. -/
def sweepImages (figures : List Figure) : Nat → List ImageBytes → Builder → Builder
  | _, [], s => s
  | i, img :: rest, s =>
    let s1 :=
      if figures.any (fun f => f.index == i) then s
      else
        let sa := { s with figure_counter := s.figure_counter + 1 }
        addFigure sa img ("Figure " ++ toString sa.figure_counter)
    sweepImages figures (i + 1) rest s1

/-- The IEEEDocxGenerator object: doc is None until the first generate
call replaces it with a Document (lines 41-45). -/
structure IEEEDocxGenerator where
  doc : Option (List Block)
  figure_counter : Nat
  table_counter : Nat
deriving DecidableEq, Repr

/-- The state produced by IEEEDocxGenerator.__init__. -/
def initGenerator : IEEEDocxGenerator :=
  { doc := none, figure_counter := 0, table_counter := 0 }

/-- generate (lines 247-314). The returned bytes are the serialization
of the built document, modelled as its block list; the second component
is the state the generator object is left in after the call. A None
images argument is replaced by the empty list at line 262, so the image
list is taken here directly. -/
def IEEEDocxGenerator.generate (_g : IEEEDocxGenerator) (paper : StructuredPaper)
    (images : List ImageBytes) : List Block × IEEEDocxGenerator :=
  let s0 := setupDocument
  let s1 := addTitle s0 paper.title
  let s2 := addAuthors s1 paper.authors
  let s3 := addAbstract s2 paper.abstract
  let s4 := addKeywords s3 paper.keywords
  let s5 := setTwoColumn s4
  let s6 := renderSections (figuresBySection paper.figures) images 1 paper.sections s5
  let s7 := sweepImages paper.figures 0 images s6
  let s8 := if paper.references.isEmpty then s7 else addReferences s7 paper.references
  (s8.doc, { doc := some s8.doc, figure_counter := s8.figure_counter,
             table_counter := s8.table_counter })

/-- The singleton accessor get_docx_generator (lines 317-325) acting on
the module-level cell. -/
def get_docx_generator (cell : Option IEEEDocxGenerator) :
    IEEEDocxGenerator × Option IEEEDocxGenerator :=
  match cell with
  | none => (initGenerator, some initGenerator)
  | some g => (g, some g)

/-- The document produced for a paper and image list (the prior
generator state never influences it; see the claim about purity). -/
def generateDoc (paper : StructuredPaper) (images : List ImageBytes) : List Block :=
  (IEEEDocxGenerator.generate initGenerator paper images).1

/-!
Compositional descriptions of the trace generate() produces, proved
below to coincide with the state-threading functions above.
-/

/-- The bucket figures_by_section assigns to a case-folded key: the
figures whose lowercased placement equals the key, in original order. -/
def figuresFor (figures : List Figure) (key : String) : List Figure :=
  figures.filter (fun f => pyLower f.placement == key)

/-- The blocks one _add_figure call appends when the counter reaches n:
the picture when the bytes embed, else the placeholder paragraph, then
the caption paragraph labelled Fig. n. -/
def figBlocks (n : Nat) (img : ImageBytes) (caption : String) : List Block :=
  (if img.ok then [Block.picture img.data]
   else [Block.placeholder "[Image could not be processed]"])
    ++ [Block.caption n caption]

/-- The blocks of one section bucket: in-range figures each advance the
counter by one, out-of-range figures leave no trace. -/
def figsTrace (images : List ImageBytes) : Nat → List Figure → List Block
  | _, [] => []
  | c, f :: fs =>
    match images[f.index]? with
    | some img => figBlocks (c + 1) img f.caption ++ figsTrace images (c + 1) fs
    | none => figsTrace images c fs

/-- How many figures of a bucket are in range of the image list. -/
def rangeCount (images : List ImageBytes) (figs : List Figure) : Nat :=
  (figs.filter (fun f => f.index < images.length)).length

/-- The blocks of the section loop from 1-based position i with the
shared figure counter at c. -/
def sectionsTrace (figures : List Figure) (images : List ImageBytes) :
    Nat → Nat → List Section → List Block
  | _, _, [] => []
  | i, c, sec :: rest =>
    Block.heading (headingNumeral i ++ ". " ++ pyUpper sec.heading)
      :: (bodyBlocks sec.content
        ++ figsTrace images c (figuresFor figures (pyLower sec.heading))
        ++ sectionsTrace figures images (i + 1)
            (c + rangeCount images (figuresFor figures (pyLower sec.heading))) rest)

/-- Pair every element with its position, starting at i. -/
def enumFrom {α : Type} : Nat → List α → List (Nat × α)
  | _, [] => []
  | i, a :: rest => (i, a) :: enumFrom (i + 1) rest

/-- The index-enumerated images whose index equals the index field of no
figure: exactly the images the trailing sweep renders, in ascending
index order. -/
def unplacedEnum (figures : List Figure) (images : List ImageBytes) : List (Nat × ImageBytes) :=
  (enumFrom 0 images).filter (fun p => ! figures.any (fun f => f.index == p.1))

/-- The blocks the sweep emits for the unplaced images when the shared
counter stands at c: each image advances the counter twice (once in the
sweep loop, once inside _add_figure), carries the auto caption text
Figure c+1 and the caption label Fig. c+2. -/
def sweepUnplaced : Nat → List (Nat × ImageBytes) → List Block
  | _, [] => []
  | c, (_, img) :: rest =>
    figBlocks (c + 2) img ("Figure " ++ toString (c + 1)) ++ sweepUnplaced (c + 2) rest

/-- The reference entry paragraphs from 1-based number i. -/
def refEntries : Nat → List String → List Block
  | _, [] => []
  | i, r :: rest => Block.reference ("[" ++ toString i ++ "] " ++ r) :: refEntries (i + 1) rest

/-- The trailing references part: nothing for an empty list, else the
bare REFERENCES heading and the numbered entries. -/
def refsBlocksOf (references : List String) : List Block :=
  if references.isEmpty then []
  else Block.heading "REFERENCES" :: refEntries 1 references

/-- The single-column front matter followed by the two-column break. -/
def preBlocks (paper : StructuredPaper) : List Block :=
  [Block.title paper.title, Block.authors paper.authors,
   Block.abstract ("Abstract—" ++ paper.abstract),
   Block.keywordsLine ("Keywords—" ++ String.intercalate "; " paper.keywords),
   Block.twoColumn pageGeom 2 columnGapTwips]

/-- The figures the section loop actually renders, in rendering order:
per section, the bucket of its case-folded heading restricted to
in-range indices. -/
def sectionRenderedFiguresFrom (figures : List Figure) (images : List ImageBytes)
    (sections : List Section) : List Figure :=
  sections.flatMap
    (fun sec => (figuresFor figures (pyLower sec.heading)).filter (fun f => f.index < images.length))

/-- sectionRenderedFiguresFrom applied to a whole paper. -/
def sectionRenderedFigures (paper : StructuredPaper) (images : List ImageBytes) : List Figure :=
  sectionRenderedFiguresFrom paper.figures images paper.sections

/-- Everything generate() emits up to (not including) the references. -/
def docNoRefs (paper : StructuredPaper) (images : List ImageBytes) : List Block :=
  preBlocks paper
    ++ sectionsTrace paper.figures images 1 0 paper.sections
    ++ sweepUnplaced (sectionRenderedFigures paper images).length
        (unplacedEnum paper.figures images)

/-- The complete document trace. -/
def fullTrace (paper : StructuredPaper) (images : List ImageBytes) : List Block :=
  docNoRefs paper images ++ refsBlocksOf paper.references

/-!
Projections of a document trace used to state the claims.
-/

/-- The caption paragraphs of a trace: label number and caption text. -/
def captionsOf (doc : List Block) : List (Nat × String) :=
  doc.filterMap (fun b => match b with | Block.caption n t => some (n, t) | _ => none)

/-- The heading paragraph texts of a trace, in order. -/
def headingTexts (doc : List Block) : List String :=
  doc.filterMap (fun b => match b with | Block.heading t => some t | _ => none)

/-- How many two-column directives a trace holds. -/
def colsCount (doc : List Block) : Nat :=
  (doc.filter (fun b => match b with | Block.twoColumn _ _ _ => true | _ => false)).length

/-- Caption pairs of a run of explicitly placed figures beginning with
the counter at c: each rendering advances the counter by exactly one. -/
def capSeq : Nat → List Figure → List (Nat × String)
  | _, [] => []
  | c, f :: fs => (c + 1, f.caption) :: capSeq (c + 1) fs

/-- Caption pairs of the sweep beginning with the counter at c: each
swept image advances the counter by two. -/
def sweepCapSeq : Nat → List (Nat × ImageBytes) → List (Nat × String)
  | _, [] => []
  | c, _ :: rest => (c + 2, "Figure " ++ toString (c + 1)) :: sweepCapSeq (c + 2) rest

/-- The heading texts the section loop emits from 1-based position i. -/
def secsHeadings : Nat → List Section → List String
  | _, [] => []
  | i, sec :: rest => (headingNumeral i ++ ". " ++ pyUpper sec.heading) :: secsHeadings (i + 1) rest

/-!
Characterization of the state-threading functions by the compositional
trace functions.
-/

theorem addFigure_eq (s : Builder) (img : ImageBytes) (caption : String) :
    addFigure s img caption =
      { doc := s.doc ++ figBlocks (s.figure_counter + 1) img caption,
        figure_counter := s.figure_counter + 1,
        table_counter := s.table_counter } := by
  cases h : img.ok <;> simp [addFigure, figBlocks, h]

theorem dictLookup_nil (key : String) : dictLookup [] key = [] := by
  simp [dictLookup]

theorem dictLookup_cons (k : String) (v : List Figure) (m : List (String × List Figure))
    (key : String) :
    dictLookup ((k, v) :: m) key = if k = key then v else dictLookup m key := by
  by_cases h : k = key <;> simp [dictLookup, h]

theorem dictLookup_dictAppend (m : List (String × List Figure)) (key2 key : String)
    (fig : Figure) :
    dictLookup (dictAppend m key2 fig) key =
      dictLookup m key ++ (if key2 = key then [fig] else []) := by
  induction m with
  | nil =>
    by_cases h : key2 = key <;> simp [dictAppend, dictLookup, h]
  | cons kv rest ih =>
    obtain ⟨k, v⟩ := kv
    by_cases h1 : k = key2
    · subst h1
      by_cases h2 : k = key <;> simp [dictAppend, dictLookup_cons, h2]
    · by_cases h2 : k = key
      · subst h2
        have hk : ¬ key2 = k := fun hh => h1 hh.symm
        simp [dictAppend, dictLookup_cons, h1, hk]
      · simp [dictAppend, dictLookup_cons, h1, h2, ih]

theorem dictLookup_foldl (figs : List Figure) (m : List (String × List Figure)) (key : String) :
    dictLookup (figs.foldl (fun m fig => dictAppend m (pyLower fig.placement) fig) m) key =
      dictLookup m key ++ figuresFor figs key := by
  induction figs generalizing m with
  | nil => simp [figuresFor]
  | cons fig rest ih =>
    rw [List.foldl_cons, ih, dictLookup_dictAppend]
    by_cases h : pyLower fig.placement = key <;>
      simp [figuresFor, List.filter_cons, h, List.append_assoc]

theorem dictLookup_figuresBySection (figures : List Figure) (key : String) :
    dictLookup (figuresBySection figures) key = figuresFor figures key := by
  simpa [figuresBySection, dictLookup_nil] using dictLookup_foldl figures [] key

theorem renderSectionFigures_eq (images : List ImageBytes) (figs : List Figure) (s : Builder) :
    renderSectionFigures images figs s =
      { doc := s.doc ++ figsTrace images s.figure_counter figs,
        figure_counter := s.figure_counter + rangeCount images figs,
        table_counter := s.table_counter } := by
  induction figs generalizing s with
  | nil => simp [renderSectionFigures, figsTrace, rangeCount]
  | cons fig rest ih =>
    cases h : images[fig.index]? with
    | some img =>
      have hlt : fig.index < images.length := (List.getElem?_eq_some.mp h).1
      simp [renderSectionFigures, h, addFigure_eq, ih, figsTrace, rangeCount,
        List.filter_cons, hlt, List.append_assoc]
      omega
    | none =>
      have hge : ¬ fig.index < images.length :=
        Nat.not_lt.mpr (List.getElem?_eq_none_iff.mp h)
      simp [renderSectionFigures, h, ih, figsTrace, rangeCount, List.filter_cons, hge]

theorem renderSections_eq (figures : List Figure) (images : List ImageBytes)
    (secs : List Section) (i : Nat) (s : Builder) :
    renderSections (figuresBySection figures) images i secs s =
      { doc := s.doc ++ sectionsTrace figures images i s.figure_counter secs,
        figure_counter :=
          s.figure_counter + (sectionRenderedFiguresFrom figures images secs).length,
        table_counter := s.table_counter } := by
  induction secs generalizing i s with
  | nil => simp [renderSections, sectionsTrace, sectionRenderedFiguresFrom]
  | cons sec rest ih =>
    simp [renderSections, addSectionHeading, addBodyText, dictLookup_figuresBySection,
      renderSectionFigures_eq, ih, sectionsTrace, sectionRenderedFiguresFrom,
      rangeCount, List.append_assoc]
    omega

theorem sweepImages_eq (figures : List Figure) (imgs : List ImageBytes) (i : Nat) (s : Builder) :
    sweepImages figures i imgs s =
      { doc := s.doc ++ sweepUnplaced s.figure_counter
          ((enumFrom i imgs).filter (fun p => ! figures.any (fun f => f.index == p.1))),
        figure_counter := s.figure_counter
          + 2 * ((enumFrom i imgs).filter (fun p => ! figures.any (fun f => f.index == p.1))).length,
        table_counter := s.table_counter } := by
  induction imgs generalizing i s with
  | nil => simp [sweepImages, enumFrom, sweepUnplaced]
  | cons img rest ih =>
    cases h : figures.any (fun f => f.index == i) with
    | true =>
      simp [sweepImages, h, ih, enumFrom, List.filter_cons]
    | false =>
      simp [sweepImages, h, ih, addFigure_eq, enumFrom, List.filter_cons,
        sweepUnplaced, List.append_assoc]
      omega

theorem refEntriesLoop_eq (rs : List String) (i : Nat) (s : Builder) :
    refEntriesLoop i rs s = { s with doc := s.doc ++ refEntries i rs } := by
  induction rs generalizing i s with
  | nil => simp [refEntriesLoop, refEntries]
  | cons r rest ih => simp [refEntriesLoop, ih, refEntries, List.append_assoc]

theorem addReferences_eq (s : Builder) (rs : List String) :
    addReferences s rs =
      { s with doc := s.doc ++ Block.heading "REFERENCES" :: refEntries 1 rs } := by
  simp [addReferences, addSectionHeading, refEntriesLoop_eq, List.dropLast_concat,
    List.append_assoc]

/-- The central decomposition: generate() returns the compositional
trace and the generator object is left holding that trace and the final
counter. -/
theorem generate_eq (g : IEEEDocxGenerator) (paper : StructuredPaper)
    (images : List ImageBytes) :
    IEEEDocxGenerator.generate g paper images =
      (fullTrace paper images,
       { doc := some (fullTrace paper images),
         figure_counter := (sectionRenderedFigures paper images).length
           + 2 * (unplacedEnum paper.figures images).length,
         table_counter := 0 }) := by
  cases href : paper.references.isEmpty <;>
    simp [IEEEDocxGenerator.generate, setupDocument, addTitle, addAuthors, addAbstract,
      addKeywords, setTwoColumn, renderSections_eq, sweepImages_eq, addReferences_eq,
      href, fullTrace, docNoRefs, preBlocks, refsBlocksOf, unplacedEnum,
      sectionRenderedFigures, List.append_assoc]

theorem generateDoc_eq (paper : StructuredPaper) (images : List ImageBytes) :
    generateDoc paper images = fullTrace paper images := by
  simp [generateDoc, generate_eq]


/-!
Projection lemmas: which captions, headings and column directives each
part of the trace holds.
-/

theorem captionsOf_nil : captionsOf [] = [] := rfl

theorem captionsOf_cons_heading (t : String) (l : List Block) :
    captionsOf (Block.heading t :: l) = captionsOf l := rfl

theorem captionsOf_cons_body (t : String) (l : List Block) :
    captionsOf (Block.body t :: l) = captionsOf l := rfl

theorem captionsOf_cons_reference (t : String) (l : List Block) :
    captionsOf (Block.reference t :: l) = captionsOf l := rfl

theorem captionsOf_append (a b : List Block) :
    captionsOf (a ++ b) = captionsOf a ++ captionsOf b := by
  simp [captionsOf]

theorem captionsOf_figBlocks (n : Nat) (img : ImageBytes) (cap : String) :
    captionsOf (figBlocks n img cap) = [(n, cap)] := by
  cases h : img.ok <;> simp [figBlocks, captionsOf, h]

theorem captionsOf_mapBody (l : List String) :
    captionsOf (l.map Block.body) = [] := by
  induction l with
  | nil => rfl
  | cons t rest ih => rw [List.map_cons, captionsOf_cons_body]; exact ih

theorem captionsOf_bodyBlocks (content : String) :
    captionsOf (bodyBlocks content) = [] := by
  rw [bodyBlocks, captionsOf_mapBody]

theorem capSeq_append (l1 l2 : List Figure) (c : Nat) :
    capSeq c (l1 ++ l2) = capSeq c l1 ++ capSeq (c + l1.length) l2 := by
  induction l1 generalizing c with
  | nil => simp [capSeq]
  | cons f fs ih =>
    have harith : c + (fs.length + 1) = (c + 1) + fs.length := by omega
    simp [capSeq, ih (c + 1), harith]

theorem captionsOf_figsTrace (images : List ImageBytes) (figs : List Figure) (c : Nat) :
    captionsOf (figsTrace images c figs) =
      capSeq c (figs.filter (fun f => f.index < images.length)) := by
  induction figs generalizing c with
  | nil => simp [figsTrace, capSeq, captionsOf_nil]
  | cons f fs ih =>
    cases h : images[f.index]? with
    | some img =>
      have hlt : f.index < images.length := (List.getElem?_eq_some.mp h).1
      simp [figsTrace, h, captionsOf_append, captionsOf_figBlocks, ih,
        List.filter_cons, hlt, capSeq]
    | none =>
      have hge : ¬ f.index < images.length :=
        Nat.not_lt.mpr (List.getElem?_eq_none_iff.mp h)
      simp [figsTrace, h, ih, List.filter_cons, hge]

theorem captionsOf_sectionsTrace (figures : List Figure) (images : List ImageBytes)
    (secs : List Section) (i c : Nat) :
    captionsOf (sectionsTrace figures images i c secs) =
      capSeq c (sectionRenderedFiguresFrom figures images secs) := by
  induction secs generalizing i c with
  | nil => simp [sectionsTrace, sectionRenderedFiguresFrom, capSeq, captionsOf_nil]
  | cons sec rest ih =>
    rw [sectionsTrace, captionsOf_cons_heading, captionsOf_append, captionsOf_append,
      captionsOf_bodyBlocks, captionsOf_figsTrace, ih]
    simp [sectionRenderedFiguresFrom, capSeq_append, rangeCount]

theorem captionsOf_sweepUnplaced (l : List (Nat × ImageBytes)) (c : Nat) :
    captionsOf (sweepUnplaced c l) = sweepCapSeq c l := by
  induction l generalizing c with
  | nil => rfl
  | cons p rest ih =>
    obtain ⟨i, img⟩ := p
    simp [sweepUnplaced, sweepCapSeq, captionsOf_append, captionsOf_figBlocks, ih]

theorem captionsOf_refEntries (rs : List String) (i : Nat) :
    captionsOf (refEntries i rs) = [] := by
  induction rs generalizing i with
  | nil => rfl
  | cons r rest ih => rw [refEntries, captionsOf_cons_reference]; exact ih (i + 1)

theorem captionsOf_refsBlocksOf (rs : List String) :
    captionsOf (refsBlocksOf rs) = [] := by
  cases h : rs.isEmpty <;>
    simp [refsBlocksOf, h, captionsOf_nil, captionsOf_cons_heading, captionsOf_refEntries]

theorem captionsOf_preBlocks (paper : StructuredPaper) :
    captionsOf (preBlocks paper) = [] := by
  simp [preBlocks, captionsOf]

/-- The caption paragraphs of the whole document: the explicitly placed
in-range figures numbered consecutively from 1, then the sweep starting
from the explicit count, stepping the counter by two per image. -/
theorem captionsOf_generateDoc (paper : StructuredPaper) (images : List ImageBytes) :
    captionsOf (generateDoc paper images) =
      capSeq 0 (sectionRenderedFigures paper images)
        ++ sweepCapSeq (sectionRenderedFigures paper images).length
            (unplacedEnum paper.figures images) := by
  simp [generateDoc_eq, fullTrace, docNoRefs, captionsOf_append, captionsOf_preBlocks,
    captionsOf_sectionsTrace, captionsOf_sweepUnplaced, captionsOf_refsBlocksOf,
    sectionRenderedFigures]

theorem headingTexts_nil : headingTexts [] = [] := rfl

theorem headingTexts_cons_heading (t : String) (l : List Block) :
    headingTexts (Block.heading t :: l) = t :: headingTexts l := rfl

theorem headingTexts_cons_body (t : String) (l : List Block) :
    headingTexts (Block.body t :: l) = headingTexts l := rfl

theorem headingTexts_cons_reference (t : String) (l : List Block) :
    headingTexts (Block.reference t :: l) = headingTexts l := rfl

theorem headingTexts_append (a b : List Block) :
    headingTexts (a ++ b) = headingTexts a ++ headingTexts b := by
  simp [headingTexts]

theorem headingTexts_figBlocks (n : Nat) (img : ImageBytes) (cap : String) :
    headingTexts (figBlocks n img cap) = [] := by
  cases h : img.ok <;> simp [figBlocks, headingTexts, h]

theorem headingTexts_mapBody (l : List String) :
    headingTexts (l.map Block.body) = [] := by
  induction l with
  | nil => rfl
  | cons t rest ih => rw [List.map_cons, headingTexts_cons_body]; exact ih

theorem headingTexts_bodyBlocks (content : String) :
    headingTexts (bodyBlocks content) = [] := by
  rw [bodyBlocks, headingTexts_mapBody]

theorem headingTexts_figsTrace (images : List ImageBytes) (figs : List Figure) (c : Nat) :
    headingTexts (figsTrace images c figs) = [] := by
  induction figs generalizing c with
  | nil => rfl
  | cons f fs ih =>
    cases h : images[f.index]? with
    | some img =>
      simp [figsTrace, h, headingTexts_append, headingTexts_figBlocks, ih]
    | none => simp [figsTrace, h, ih]

theorem headingTexts_sweepUnplaced (l : List (Nat × ImageBytes)) (c : Nat) :
    headingTexts (sweepUnplaced c l) = [] := by
  induction l generalizing c with
  | nil => rfl
  | cons p rest ih =>
    obtain ⟨i, img⟩ := p
    simp [sweepUnplaced, headingTexts_append, headingTexts_figBlocks, ih]

theorem headingTexts_refEntries (rs : List String) (i : Nat) :
    headingTexts (refEntries i rs) = [] := by
  induction rs generalizing i with
  | nil => rfl
  | cons r rest ih => rw [refEntries, headingTexts_cons_reference]; exact ih (i + 1)

theorem headingTexts_sectionsTrace (figures : List Figure) (images : List ImageBytes)
    (secs : List Section) (i c : Nat) :
    headingTexts (sectionsTrace figures images i c secs) = secsHeadings i secs := by
  induction secs generalizing i c with
  | nil => rfl
  | cons sec rest ih =>
    rw [sectionsTrace, headingTexts_cons_heading, headingTexts_append, headingTexts_append,
      headingTexts_bodyBlocks, headingTexts_figsTrace, ih]
    simp [secsHeadings]

theorem headingTexts_preBlocks (paper : StructuredPaper) :
    headingTexts (preBlocks paper) = [] := by
  simp [preBlocks, headingTexts]

theorem headingTexts_refsBlocksOf (rs : List String) :
    headingTexts (refsBlocksOf rs) =
      if rs.isEmpty then [] else ["REFERENCES"] := by
  cases h : rs.isEmpty <;>
    simp [refsBlocksOf, h, headingTexts_nil, headingTexts_cons_heading,
      headingTexts_refEntries]

/-- The heading paragraphs of the whole document: the numbered section
headings in order, then the bare REFERENCES heading when the reference
list is non-empty. -/
theorem headingTexts_generateDoc (paper : StructuredPaper) (images : List ImageBytes) :
    headingTexts (generateDoc paper images) =
      secsHeadings 1 paper.sections
        ++ (if paper.references.isEmpty then [] else ["REFERENCES"]) := by
  rw [generateDoc_eq, fullTrace, docNoRefs, headingTexts_append, headingTexts_append,
    headingTexts_append, headingTexts_preBlocks, headingTexts_sectionsTrace,
    headingTexts_sweepUnplaced, headingTexts_refsBlocksOf]
  simp

theorem secsHeadings_length (secs : List Section) (i : Nat) :
    (secsHeadings i secs).length = secs.length := by
  induction secs generalizing i with
  | nil => rfl
  | cons sec rest ih => simp [secsHeadings, ih (i + 1)]

theorem secsHeadings_getElem (secs : List Section) (i n : Nat) :
    (secsHeadings i secs)[n]? =
      (secs[n]?).map (fun sec => headingNumeral (i + n) ++ ". " ++ pyUpper sec.heading) := by
  induction secs generalizing i n with
  | nil => simp [secsHeadings]
  | cons sec rest ih =>
    cases n with
    | zero => simp [secsHeadings]
    | succ m =>
      have harith : i + 1 + m = i + (m + 1) := by omega
      simp [secsHeadings, ih (i + 1) m, harith]

theorem colsCount_nil : colsCount [] = 0 := rfl

theorem colsCount_cons_heading (t : String) (l : List Block) :
    colsCount (Block.heading t :: l) = colsCount l := rfl

theorem colsCount_cons_body (t : String) (l : List Block) :
    colsCount (Block.body t :: l) = colsCount l := rfl

theorem colsCount_cons_reference (t : String) (l : List Block) :
    colsCount (Block.reference t :: l) = colsCount l := rfl

theorem colsCount_append (a b : List Block) :
    colsCount (a ++ b) = colsCount a + colsCount b := by
  simp [colsCount, List.filter_append]

theorem colsCount_figBlocks (n : Nat) (img : ImageBytes) (cap : String) :
    colsCount (figBlocks n img cap) = 0 := by
  cases h : img.ok <;> simp [figBlocks, colsCount, h]

theorem colsCount_mapBody (l : List String) :
    colsCount (l.map Block.body) = 0 := by
  induction l with
  | nil => rfl
  | cons t rest ih => rw [List.map_cons, colsCount_cons_body]; exact ih

theorem colsCount_bodyBlocks (content : String) :
    colsCount (bodyBlocks content) = 0 := by
  rw [bodyBlocks, colsCount_mapBody]

theorem colsCount_figsTrace (images : List ImageBytes) (figs : List Figure) (c : Nat) :
    colsCount (figsTrace images c figs) = 0 := by
  induction figs generalizing c with
  | nil => rfl
  | cons f fs ih =>
    cases h : images[f.index]? with
    | some img => simp [figsTrace, h, colsCount_append, colsCount_figBlocks, ih]
    | none => simp [figsTrace, h, ih]

theorem colsCount_sectionsTrace (figures : List Figure) (images : List ImageBytes)
    (secs : List Section) (i c : Nat) :
    colsCount (sectionsTrace figures images i c secs) = 0 := by
  induction secs generalizing i c with
  | nil => rfl
  | cons sec rest ih =>
    rw [sectionsTrace, colsCount_cons_heading, colsCount_append, colsCount_append,
      colsCount_bodyBlocks, colsCount_figsTrace, ih]

theorem colsCount_sweepUnplaced (l : List (Nat × ImageBytes)) (c : Nat) :
    colsCount (sweepUnplaced c l) = 0 := by
  induction l generalizing c with
  | nil => rfl
  | cons p rest ih =>
    obtain ⟨i, img⟩ := p
    simp [sweepUnplaced, colsCount_append, colsCount_figBlocks, ih]

theorem colsCount_refEntries (rs : List String) (i : Nat) :
    colsCount (refEntries i rs) = 0 := by
  induction rs generalizing i with
  | nil => rfl
  | cons r rest ih => rw [refEntries, colsCount_cons_reference]; exact ih (i + 1)

theorem colsCount_refsBlocksOf (rs : List String) :
    colsCount (refsBlocksOf rs) = 0 := by
  cases h : rs.isEmpty <;>
    simp [refsBlocksOf, h, colsCount_nil, colsCount_cons_heading, colsCount_refEntries]

/-!
Facts about the index enumeration and the unplaced-image selection.
-/

theorem mem_enumFrom {α : Type} (l : List α) (i j : Nat) (a : α) :
    (j, a) ∈ enumFrom i l ↔ i ≤ j ∧ l[j - i]? = some a := by
  induction l generalizing i with
  | nil => simp [enumFrom]
  | cons x xs ih =>
    simp only [enumFrom, List.mem_cons, ih, Prod.mk.injEq]
    constructor
    · rintro (⟨hj, ha⟩ | ⟨hij, hget⟩)
      · subst hj; subst ha
        simp
      · refine ⟨by omega, ?_⟩
        have hk : j - i = (j - (i + 1)) + 1 := by omega
        rw [hk, List.getElem?_cons_succ]
        exact hget
    · rintro ⟨hij, hget⟩
      by_cases hji : j = i
      · subst hji
        have hz : j - j = 0 := by omega
        rw [hz, List.getElem?_cons_zero] at hget
        exact Or.inl ⟨rfl, (Option.some.injEq _ _ ▸ hget).symm⟩
      · refine Or.inr ⟨by omega, ?_⟩
        have hk : j - i = (j - (i + 1)) + 1 := by omega
        rw [hk, List.getElem?_cons_succ] at hget
        exact hget

theorem enumFrom_pairwise {α : Type} (l : List α) (i : Nat) :
    List.Pairwise (fun p q => p.1 < q.1) (enumFrom i l) := by
  induction l generalizing i with
  | nil => exact List.Pairwise.nil
  | cons x xs ih =>
    refine List.Pairwise.cons ?_ (ih (i + 1))
    rintro ⟨j, a⟩ hq
    have := (mem_enumFrom xs (i + 1) j a).mp hq
    simpa using by omega

/-- Membership in the swept selection: exactly the in-range indices that
equal the index field of no figure. -/
theorem mem_unplacedEnum (figures : List Figure) (images : List ImageBytes)
    (j : Nat) (img : ImageBytes) :
    (j, img) ∈ unplacedEnum figures images ↔
      (images[j]? = some img ∧ ∀ f ∈ figures, f.index ≠ j) := by
  simp [unplacedEnum, List.mem_filter, mem_enumFrom]

/-- The sweep keeps the ascending index order of the image list. -/
theorem unplacedEnum_pairwise (figures : List Figure) (images : List ImageBytes) :
    List.Pairwise (fun p q => p.1 < q.1) (unplacedEnum figures images) :=
  (enumFrom_pairwise images 0).sublist (List.filter_sublist _)

/-!
Out-of-range figures are invisible to every phase.
-/

theorem figuresFor_filter (figs : List Figure) (pr : Figure → Bool) (key : String) :
    figuresFor (figs.filter pr) key = (figuresFor figs key).filter pr := by
  unfold figuresFor
  rw [List.filter_filter, List.filter_filter]
  exact List.filter_congr (fun f _ => by rw [Bool.and_comm])

theorem figsTrace_filter_inRange (images : List ImageBytes) (figs : List Figure) (c : Nat) :
    figsTrace images c (figs.filter (fun f => f.index < images.length)) =
      figsTrace images c figs := by
  induction figs generalizing c with
  | nil => rfl
  | cons f fs ih =>
    cases h : images[f.index]? with
    | some img =>
      have hlt : f.index < images.length := (List.getElem?_eq_some.mp h).1
      simp [List.filter_cons, hlt, figsTrace, h, ih]
    | none =>
      have hge : ¬ f.index < images.length :=
        Nat.not_lt.mpr (List.getElem?_eq_none_iff.mp h)
      simp [List.filter_cons, hge, figsTrace, h, ih]

theorem filter_inRange_idem (images : List ImageBytes) (figs : List Figure) :
    (figs.filter (fun f => f.index < images.length)).filter
        (fun f => f.index < images.length) =
      figs.filter (fun f => f.index < images.length) :=
  List.filter_eq_self.mpr (fun _ hf => (List.mem_filter.mp hf).2)

theorem sectionsTrace_filter_inRange (figures : List Figure) (images : List ImageBytes)
    (secs : List Section) (i c : Nat) :
    sectionsTrace (figures.filter (fun f => f.index < images.length)) images i c secs =
      sectionsTrace figures images i c secs := by
  induction secs generalizing i c with
  | nil => rfl
  | cons sec rest ih =>
    rw [sectionsTrace, sectionsTrace, figuresFor_filter, figsTrace_filter_inRange]
    rw [show rangeCount images ((figuresFor figures (pyLower sec.heading)).filter
          (fun f => f.index < images.length)) =
        rangeCount images (figuresFor figures (pyLower sec.heading)) from by
      simp [rangeCount, filter_inRange_idem]]
    rw [ih]

theorem sectionRenderedFiguresFrom_filter_inRange (figures : List Figure)
    (images : List ImageBytes) (secs : List Section) :
    sectionRenderedFiguresFrom (figures.filter (fun f => f.index < images.length)) images secs =
      sectionRenderedFiguresFrom figures images secs := by
  induction secs with
  | nil => rfl
  | cons sec rest ih =>
    simp only [sectionRenderedFiguresFrom, List.flatMap_cons] at ih ⊢
    rw [figuresFor_filter, filter_inRange_idem, ih]

theorem unplacedEnum_filter_inRange (figures : List Figure) (images : List ImageBytes) :
    unplacedEnum (figures.filter (fun f => f.index < images.length)) images =
      unplacedEnum figures images := by
  unfold unplacedEnum
  refine List.filter_congr ?_
  rintro ⟨j, a⟩ hp
  have hj : j < images.length := by
    have := (mem_enumFrom images 0 j a).mp hp
    exact (List.getElem?_eq_some.mp this.2).1
  have hany : (figures.filter (fun f => f.index < images.length)).any
        (fun f => f.index == j) =
      figures.any (fun f => f.index == j) := by
    rw [Bool.eq_iff_iff, List.any_eq_true, List.any_eq_true]
    constructor
    · rintro ⟨f, hf, hfi⟩
      exact ⟨f, (List.mem_filter.mp hf).1, hfi⟩
    · rintro ⟨f, hf, hfi⟩
      have hfj : f.index = j := by simpa using hfi
      refine ⟨f, List.mem_filter.mpr ⟨hf, ?_⟩, hfi⟩
      simp [hfj, hj]
  rw [hany]

/-!
Counting how often one figure is rendered by the section loop.
-/

theorem count_sectionRenderedFiguresFrom (figures : List Figure) (images : List ImageBytes)
    (secs : List Section) (fig : Figure) (h : fig.index < images.length) :
    (sectionRenderedFiguresFrom figures images secs).count fig =
      (secs.filter (fun sec => pyLower sec.heading == pyLower fig.placement)).length
        * figures.count fig := by
  induction secs with
  | nil => simp [sectionRenderedFiguresFrom]
  | cons sec rest ih =>
    rw [sectionRenderedFiguresFrom, List.flatMap_cons, List.count_append]
    rw [show (rest.flatMap fun sec =>
        (figuresFor figures (pyLower sec.heading)).filter
          (fun f => f.index < images.length)) =
      sectionRenderedFiguresFrom figures images rest from rfl]
    rw [ih, List.filter_cons]
    by_cases hmatch : (pyLower sec.heading == pyLower fig.placement) = true
    · have hkey : (pyLower fig.placement == pyLower sec.heading) = true := by
        rw [beq_iff_eq] at hmatch ⊢
        exact hmatch.symm
      have hc1 : ((figuresFor figures (pyLower sec.heading)).filter
          (fun f => f.index < images.length)).count fig =
          (figuresFor figures (pyLower sec.heading)).count fig :=
        List.count_filter (by simpa using h)
      have hc2 : (figuresFor figures (pyLower sec.heading)).count fig = figures.count fig :=
        List.count_filter hkey
      rw [hc1, hc2, hmatch, if_pos rfl, List.length_cons, Nat.succ_mul]
      omega
    · have hnot : fig ∉ (figuresFor figures (pyLower sec.heading)).filter
          (fun f => f.index < images.length) := by
        intro hmem
        have hpl := (List.mem_filter.mp ((List.mem_filter.mp hmem).1)).2
        apply hmatch
        rw [beq_iff_eq] at hpl ⊢
        exact hpl.symm
      rw [List.count_eq_zero.mpr hnot]
      simp [hmatch]

/-- The numbering rule at a 1-based position n + 1, phrased the way the
spec states it: Roman numeral for positions up to 10, plain decimal
beyond. -/
theorem headingNumeral_succ (n : Nat) :
    headingNumeral (n + 1) =
      if n + 1 ≤ 10 then romanNumerals.getD n "" else toString (n + 1) := by
  have hlen : romanNumerals.length = 10 := rfl
  rw [headingNumeral, hlen, Nat.add_sub_cancel]
  by_cases h : n + 1 ≤ 10
  · rw [if_pos h, if_pos h]
    have hb : n ≤ 9 := by omega
    interval_cases n <;> rfl
  · rw [if_neg h, if_neg h]

theorem refEntries_getElem (rs : List String) (i j : Nat) :
    (refEntries i rs)[j]? =
      (rs[j]?).map (fun r => Block.reference ("[" ++ toString (i + j) ++ "] " ++ r)) := by
  induction rs generalizing i j with
  | nil => simp [refEntries]
  | cons r rest ih =>
    cases j with
    | zero => simp [refEntries]
    | succ m =>
      have harith : i + 1 + m = i + (m + 1) := by omega
      simp [refEntries, ih (i + 1) m, harith]

/-!
Concrete sample inputs used by the closed witnesses below.
-/

/-- An image whose bytes embed successfully. -/
def gImg : ImageBytes := ⟨[1], true⟩

/-- An image whose bytes python-docx cannot decode. -/
def badImg : ImageBytes := ⟨[2], false⟩

/-- A paper with no sections, figures or references. -/
def sweepPaper : StructuredPaper :=
  { title := "T", authors := "A", abstract := "B", keywords := [],
    sections := [], figures := [], references := [] }

/-- A paper with one section and one keyword. -/
def introPaper : StructuredPaper :=
  { title := "T", authors := "A", abstract := "B", keywords := ["k"],
    sections := [⟨"Introduction", "Body."⟩], figures := [], references := [] }

/-- A paper with one reference. -/
def refPaper : StructuredPaper :=
  { title := "T", authors := "A", abstract := "B", keywords := [],
    sections := [⟨"Introduction", "Body."⟩], figures := [], references := ["R one"] }

/-- A paper with eleven sections. -/
def paper11 : StructuredPaper :=
  { title := "T", authors := "A", abstract := "B", keywords := [],
    sections := [⟨"S one", "x"⟩, ⟨"S two", "x"⟩, ⟨"S three", "x"⟩, ⟨"S four", "x"⟩,
      ⟨"S five", "x"⟩, ⟨"S six", "x"⟩, ⟨"S seven", "x"⟩, ⟨"S eight", "x"⟩,
      ⟨"S nine", "x"⟩, ⟨"S ten", "x"⟩, ⟨"S eleven", "x"⟩],
    figures := [], references := [] }

/-- A paper whose only figure names a placement matching no heading. -/
def strayPaper : StructuredPaper :=
  { title := "T", authors := "A", abstract := "B", keywords := [],
    sections := [⟨"Intro", "x"⟩], figures := [⟨0, "c", "Nowhere"⟩], references := [] }

/-- A paper with two sections whose headings agree after case-folding
and one figure placed on that heading. -/
def dupPaper : StructuredPaper :=
  { title := "T", authors := "A", abstract := "B", keywords := [],
    sections := [⟨"Intro", "x"⟩, ⟨"INTRO", "y"⟩], figures := [⟨0, "c", "intro"⟩],
    references := [] }

/-!
The claims.
-/

/-- Claim C1: the claim states the figure counter grows by exactly one
per rendered figure, starting at 1, for every input. The code contradicts
it: at the failing input (a paper with no figures and a single image) the
sweep loop at lines 300-303 bumps the counter once itself and then calls
_add_figure, which bumps it again, so the single rendered figure yields
the internally inconsistent caption paragraph Fig. 2. Figure 1 and the
counter ends at 2. -/
theorem counter_double_step_on_swept_image :
    captionsOf (generateDoc sweepPaper [gImg]) = [(2, "Figure 1")] ∧
      (IEEEDocxGenerator.generate initGenerator sweepPaper [gImg]).2.figure_counter = 2 :=
  ⟨rfl, rfl⟩

/-- Claim C2: every image whose index equals no figure index field is
rendered by the trailing sweep, after all explicit sections and before
the references, in ascending index order, with the auto caption text
Figure n taken from the shared counter (sweepUnplaced shows the caption
format and how the counter advances). -/
theorem unreferenced_images_swept_in_order (paper : StructuredPaper)
    (images : List ImageBytes) :
    (generateDoc paper images =
      (preBlocks paper ++ sectionsTrace paper.figures images 1 0 paper.sections)
        ++ sweepUnplaced (sectionRenderedFigures paper images).length
            (unplacedEnum paper.figures images)
        ++ refsBlocksOf paper.references)
    ∧ (∀ j img, (j, img) ∈ unplacedEnum paper.figures images ↔
        (images[j]? = some img ∧ ∀ f ∈ paper.figures, f.index ≠ j))
    ∧ List.Pairwise (fun p q => p.1 < q.1) (unplacedEnum paper.figures images) := by
  refine ⟨?_, fun j img => mem_unplacedEnum paper.figures images j img,
    unplacedEnum_pairwise paper.figures images⟩
  rw [generateDoc_eq]
  rfl

theorem unreferenced_images_swept_in_order_witness :
    (generateDoc sweepPaper [gImg] =
      (preBlocks sweepPaper ++ sectionsTrace sweepPaper.figures [gImg] 1 0 sweepPaper.sections)
        ++ sweepUnplaced (sectionRenderedFigures sweepPaper [gImg]).length
            (unplacedEnum sweepPaper.figures [gImg])
        ++ refsBlocksOf sweepPaper.references)
    ∧ ((0, gImg) ∈ unplacedEnum sweepPaper.figures [gImg] ↔
        (([gImg] : List ImageBytes)[0]? = some gImg ∧
          ∀ f ∈ sweepPaper.figures, f.index ≠ 0)) :=
  ⟨(unreferenced_images_swept_in_order sweepPaper [gImg]).1,
   (unreferenced_images_swept_in_order sweepPaper [gImg]).2.1 0 gImg⟩

/-- Claim C3: a figure whose index is at least the image-list length
leaves no trace anywhere: the whole generate result (document and final
generator state) is unchanged when all such figures are deleted from the
input, and generation is a total function. -/
theorem out_of_range_figures_render_nothing (g : IEEEDocxGenerator)
    (paper : StructuredPaper) (images : List ImageBytes) :
    IEEEDocxGenerator.generate g paper images =
      IEEEDocxGenerator.generate g
        { paper with figures := paper.figures.filter (fun f => f.index < images.length) }
        images := by
  rw [generate_eq, generate_eq]
  have hsec : sectionRenderedFigures
      { paper with figures := paper.figures.filter (fun f => f.index < images.length) }
        images =
      sectionRenderedFigures paper images := by
    simpa [sectionRenderedFigures] using
      sectionRenderedFiguresFrom_filter_inRange paper.figures images paper.sections
  have hfull : fullTrace
      { paper with figures := paper.figures.filter (fun f => f.index < images.length) }
        images =
      fullTrace paper images := by
    simp [fullTrace, docNoRefs, preBlocks, hsec, sectionsTrace_filter_inRange,
      unplacedEnum_filter_inRange]
  simp [hfull, hsec, unplacedEnum_filter_inRange]

/-- Claim C4: the heading emitted for the section at 0-based position n
(1-based position n + 1) reads numeral-dot-space followed by the
uppercased heading, with a Roman numeral from I to X for positions up to
10 and the plain decimal number beyond. -/
theorem section_headings_roman_then_decimal (paper : StructuredPaper)
    (images : List ImageBytes) (n : Nat) (h : n < paper.sections.length) :
    (headingTexts (generateDoc paper images))[n]? =
      some ((if n + 1 ≤ 10 then romanNumerals.getD n "" else toString (n + 1))
        ++ ". " ++ pyUpper (paper.sections.get ⟨n, h⟩).heading) := by
  rw [headingTexts_generateDoc,
    List.getElem?_append_left (by rw [secsHeadings_length]; exact h),
    secsHeadings_getElem, List.getElem?_eq_getElem h]
  rw [show 1 + n = n + 1 from by omega, headingNumeral_succ]
  rfl

theorem section_headings_roman_then_decimal_witness :
    10 < paper11.sections.length ∧
      (headingTexts (generateDoc paper11 []))[10]? =
        some ((if 10 + 1 ≤ 10 then romanNumerals.getD 10 "" else toString (10 + 1))
          ++ ". " ++ pyUpper (paper11.sections.get ⟨10, by decide⟩).heading) :=
  ⟨by decide, section_headings_roman_then_decimal paper11 [] 10 (by decide)⟩

/-- Claim C5: the two-column directive (a w:cols element with exactly 2
columns and the fixed 360-twip gap, on a new section with the fixed page
geometry) occurs exactly once, directly after the
title/authors/abstract/keywords block and before the first section
heading. -/
theorem two_column_directive_once (paper : StructuredPaper) (images : List ImageBytes) :
    ∃ rest,
      (generateDoc paper images =
        [Block.title paper.title, Block.authors paper.authors,
         Block.abstract ("Abstract—" ++ paper.abstract),
         Block.keywordsLine ("Keywords—" ++ String.intercalate "; " paper.keywords)]
          ++ Block.twoColumn pageGeom 2 360 :: rest)
      ∧ colsCount rest = 0
      ∧ ∀ sec tail, paper.sections = sec :: tail →
          ∃ l, rest = Block.heading ("I. " ++ pyUpper sec.heading) :: l := by
  have h360 : columnGapTwips = 360 := by norm_num [columnGapTwips, COLUMN_GAP]
  refine ⟨sectionsTrace paper.figures images 1 0 paper.sections
      ++ sweepUnplaced (sectionRenderedFigures paper images).length
          (unplacedEnum paper.figures images)
      ++ refsBlocksOf paper.references, ?_, ?_, ?_⟩
  · rw [generateDoc_eq]
    simp [fullTrace, docNoRefs, preBlocks, h360]
  · simp [colsCount_append, colsCount_sectionsTrace, colsCount_sweepUnplaced,
      colsCount_refsBlocksOf]
  · intro sec tail hsec
    rw [hsec, sectionsTrace]
    exact ⟨(bodyBlocks sec.content
        ++ figsTrace images 0 (figuresFor paper.figures (pyLower sec.heading))
        ++ sectionsTrace paper.figures images 2
            (0 + rangeCount images (figuresFor paper.figures (pyLower sec.heading))) tail)
        ++ sweepUnplaced (sectionRenderedFigures paper images).length
            (unplacedEnum paper.figures images)
        ++ refsBlocksOf paper.references, rfl⟩

theorem two_column_directive_once_witness :
    ∃ rest,
      (generateDoc introPaper [] =
        [Block.title "T", Block.authors "A", Block.abstract "Abstract—B",
         Block.keywordsLine "Keywords—k"] ++ Block.twoColumn pageGeom 2 360 :: rest)
      ∧ colsCount rest = 0
      ∧ ∃ l, rest = Block.heading "I. INTRODUCTION" :: l := by
  obtain ⟨rest, h1, h2, h3⟩ := two_column_directive_once introPaper []
  obtain ⟨l, hl⟩ := h3 ⟨"Introduction", "Body."⟩ [] rfl
  exact ⟨rest, h1, h2, l, hl⟩

/-- Claim C6: with a non-empty reference list the references block is
the final part of the document, its heading paragraph is literally
REFERENCES with no numeral, and the entries follow in input order as
bracket-i-space-text with i starting at 1; with an empty list nothing is
appended. -/
theorem references_last_block_and_format (paper : StructuredPaper)
    (images : List ImageBytes) :
    (paper.references ≠ [] →
      generateDoc paper images =
        docNoRefs paper images
          ++ Block.heading "REFERENCES" :: refEntries 1 paper.references)
    ∧ (paper.references = [] → generateDoc paper images = docNoRefs paper images)
    ∧ ∀ j : Nat, (refEntries 1 paper.references)[j]? =
        (paper.references[j]?).map
          (fun r => Block.reference ("[" ++ toString (j + 1) ++ "] " ++ r)) := by
  refine ⟨?_, ?_, ?_⟩
  · intro h
    rw [generateDoc_eq, fullTrace, refsBlocksOf,
      if_neg (by simpa [List.isEmpty_iff] using h)]
  · intro h
    rw [generateDoc_eq, fullTrace, refsBlocksOf,
      if_pos (by simpa [List.isEmpty_iff] using h), List.append_nil]
  · intro j
    rw [refEntries_getElem]
    rw [show 1 + j = j + 1 from by omega]

theorem references_last_block_and_format_witness :
    refPaper.references ≠ [] ∧
      generateDoc refPaper [] =
        docNoRefs refPaper []
          ++ Block.heading "REFERENCES" :: refEntries 1 refPaper.references :=
  ⟨by decide, (references_last_block_and_format refPaper []).1 (by decide)⟩

/-- Claim C7: when the image bytes cannot be embedded, _add_figure still
advances the shared counter by one, emits the centered placeholder
paragraph in place of the picture, and still emits the caption
paragraph; no exception escapes (the embedding is total). -/
theorem bad_image_placeholder_caption_counter (s : Builder) (img : ImageBytes)
    (cap : String) (h : img.ok = false) :
    addFigure s img cap =
      { doc := s.doc ++ [Block.placeholder "[Image could not be processed]",
          Block.caption (s.figure_counter + 1) cap],
        figure_counter := s.figure_counter + 1,
        table_counter := s.table_counter } := by
  simp [addFigure, h]

theorem bad_image_placeholder_caption_counter_witness :
    badImg.ok = false ∧
      addFigure setupDocument badImg "cap" =
        { doc := setupDocument.doc ++ [Block.placeholder "[Image could not be processed]",
            Block.caption (setupDocument.figure_counter + 1) "cap"],
          figure_counter := setupDocument.figure_counter + 1,
          table_counter := setupDocument.table_counter } :=
  ⟨rfl, bad_image_placeholder_caption_counter setupDocument badImg "cap" rfl⟩

/-- Claim C8, counterexample: the claim asserts no state outside the
call is left mutated, but generate() leaves the singleton generator
object holding the built document and the final counter: at a concrete
input the post-call generator state differs from the fresh state. -/
theorem generate_mutates_generator_state :
    (IEEEDocxGenerator.generate initGenerator sweepPaper [gImg]).2 ≠ initGenerator := by
  decide

/-- Claim C8, amended: the returned document is a function of the paper
and image list alone, identical for any two prior generator states
(generate re-creates the document and resets the counters first), but
the call does mutate the generator it runs on, leaving its doc field
holding the returned trace. -/
theorem generate_output_independent_of_prior_state (g g2 : IEEEDocxGenerator)
    (paper : StructuredPaper) (images : List ImageBytes) :
    (IEEEDocxGenerator.generate g paper images).1 =
      (IEEEDocxGenerator.generate g2 paper images).1
    ∧ (IEEEDocxGenerator.generate g paper images).2.doc =
        some ((IEEEDocxGenerator.generate g paper images).1) :=
  ⟨rfl, rfl⟩

/-- Claim C9: a figure of the input whose case-folded placement matches
no case-folded section heading is rendered by no section (it is not
among the figures the section loop renders), yet its index still
excludes the referenced image from the trailing sweep; the caption
decomposition ties both sets to the generated document. -/
theorem unmatched_placement_figure_vanishes (paper : StructuredPaper)
    (images : List ImageBytes) (fig : Figure) (hmem : fig ∈ paper.figures)
    (hplace : ∀ sec ∈ paper.sections, pyLower sec.heading ≠ pyLower fig.placement) :
    fig ∉ sectionRenderedFigures paper images
    ∧ (∀ p ∈ unplacedEnum paper.figures images, p.1 ≠ fig.index)
    ∧ captionsOf (generateDoc paper images) =
        capSeq 0 (sectionRenderedFigures paper images)
          ++ sweepCapSeq (sectionRenderedFigures paper images).length
              (unplacedEnum paper.figures images) := by
  refine ⟨?_, ?_, captionsOf_generateDoc paper images⟩
  · intro hin
    rw [sectionRenderedFigures, sectionRenderedFiguresFrom, List.mem_flatMap] at hin
    obtain ⟨sec, hsec, hf⟩ := hin
    have hpl := (List.mem_filter.mp ((List.mem_filter.mp hf).1)).2
    rw [beq_iff_eq] at hpl
    exact hplace sec hsec hpl.symm
  · rintro ⟨j, img⟩ hp
    have hall := ((mem_unplacedEnum paper.figures images j img).mp hp).2
    exact fun hji => hall fig hmem hji.symm

theorem unmatched_placement_figure_vanishes_witness :
    ((⟨0, "c", "Nowhere"⟩ : Figure) ∈ strayPaper.figures
        ∧ ∀ sec ∈ strayPaper.sections,
            pyLower sec.heading ≠ pyLower (Figure.mk 0 "c" "Nowhere").placement)
      ∧ (⟨0, "c", "Nowhere"⟩ : Figure) ∉ sectionRenderedFigures strayPaper [gImg]
      ∧ ∀ p ∈ unplacedEnum strayPaper.figures [gImg],
          p.1 ≠ (Figure.mk 0 "c" "Nowhere").index := by
  have h := unmatched_placement_figure_vanishes strayPaper [gImg] ⟨0, "c", "Nowhere"⟩
    (by decide) (by decide)
  exact ⟨⟨by decide, by decide⟩, h.1, h.2.1⟩

/-- Claim C10: when several sections share a case-folded heading, an
in-range figure placed on that heading is rendered once per matching
section: its multiplicity among the section-rendered figures is the
number of matching sections times its multiplicity in the figure list,
and the caption decomposition shows each rendering advancing the shared
counter by one. -/
theorem duplicate_headings_render_per_match (paper : StructuredPaper)
    (images : List ImageBytes) (fig : Figure) (h : fig.index < images.length) :
    (sectionRenderedFigures paper images).count fig =
      (paper.sections.filter
        (fun sec => pyLower sec.heading == pyLower fig.placement)).length
        * paper.figures.count fig
    ∧ captionsOf (generateDoc paper images) =
        capSeq 0 (sectionRenderedFigures paper images)
          ++ sweepCapSeq (sectionRenderedFigures paper images).length
              (unplacedEnum paper.figures images) :=
  ⟨count_sectionRenderedFiguresFrom paper.figures images paper.sections fig h,
   captionsOf_generateDoc paper images⟩

theorem duplicate_headings_render_per_match_witness :
    (Figure.mk 0 "c" "intro").index < ([gImg] : List ImageBytes).length ∧
      (sectionRenderedFigures dupPaper [gImg]).count (Figure.mk 0 "c" "intro") =
        (dupPaper.sections.filter
          (fun sec => pyLower sec.heading == pyLower (Figure.mk 0 "c" "intro").placement)).length
          * dupPaper.figures.count (Figure.mk 0 "c" "intro") :=
  ⟨by decide,
   (duplicate_headings_render_per_match dupPaper [gImg] (Figure.mk 0 "c" "intro")
      (by decide)).1⟩

end AutoAlign
